import Mathlib

/-!
Verification of the go-tableland execution engine specification.

The execution engine (Executor / Block Scope / Transaction Scope / Policy
Validator / ACL Store) is embedded shallowly below.  Its concrete sources are
not part of the sampled tree (only its test suite is), so the engine
definitions are modelled from the specification, with the behaviour the test
suite pins down taken as authoritative where the two disagree.  The telemetry
`SetMetricStore`/`Collect` pair and the Ethereum client `callWithRetry` are
embedded directly from their sources.
-/

namespace Tableland

/-- Table identifier (arbitrary-precision non-negative integer in the source). -/
abbrev TableID := Nat

/-- Blockchain address, kept as its textual form. -/
abbrev Addr := String

/-- Modelled from the spec: the three grantable privileges of an ACL row. -/
inductive Priv where
  | ins
  | upd
  | del
deriving DecidableEq, Repr

/-- Modelled from the spec: an access policy attached to a RunSQL event.
Row predicates (`whereClause`, `withCheck`) are embedded as Boolean
predicates over a row value, and `updatableColumns` as an optional list of
column names. -/
structure Policy where
  allowInsert : Bool
  allowUpdate : Bool
  allowDelete : Bool
  whereClause : Option (String → Bool)
  updatableColumns : Option (List String)
  withCheck : Option (String → Bool)

/-- Modelled from the spec: a parsed mutating operation of a RunSQL statement
against the single-text-column test table (`zar`). -/
inductive WriteOp where
  | insertRow (value : String)
  | updateRows (col : String) (value : String) (wh : Option (String → Bool))
  | deleteRows (wh : Option (String → Bool))

/-- Modelled from the spec: one parsed query of a RunSQL statement. -/
inductive Stmt where
  | write (t : TableID) (op : WriteOp)
  | grantPriv (t : TableID) (grantees : List Addr) (ps : Finset Priv)
  | revokePriv (t : TableID) (grantees : List Addr) (ps : Finset Priv)

/-- Modelled from the spec: the event variants consumed by a Transaction
Scope.  A RunSQL event carries the ordered parsed queries of its statement. -/
inductive Event where
  | runSQL (isOwner : Bool) (t : TableID) (pol : Policy) (stmts : List Stmt)
  | createTable (owner : Addr) (t : TableID) (maxRows : Nat)
  | setController (t : TableID) (ctrl : Addr)
  | grantEvt (t : TableID) (grantees : List Addr) (ps : Finset Priv)
  | revokeEvt (t : TableID) (grantees : List Addr) (ps : Finset Priv)

/-- The table id an event targets. -/
def eventTable : Event → TableID
  | .runSQL _ t _ _ => t
  | .createTable _ t _ => t
  | .setController t _ => t
  | .grantEvt t _ _ => t
  | .revokeEvt t _ _ => t

/-- Modelled from the spec: per-table state — its rows (values of the single
text column, in insertion order), its currently set controller, and its
configured maximum row count (0 meaning unlimited). -/
structure TableRecord where
  rows : List String
  controller : Option Addr
  maxRowCount : Nat
deriving DecidableEq, Repr

/-- Modelled from the spec: the database state — the user tables and the
system-owned ACL table keyed by (table, controller). -/
structure DB where
  tables : List (TableID × TableRecord)
  acl : List ((TableID × Addr) × Finset Priv)
deriving DecidableEq

/-- First-match lookup of a table. -/
def lookupTable (db : DB) (t : TableID) : Option TableRecord :=
  match db.tables.find? (fun p => p.1 = t) with
  | some p => some p.2
  | none => none

/-- Replace the record of table `t` (first occurrence). -/
def setTable (tabs : List (TableID × TableRecord)) (t : TableID) (r : TableRecord) :
    List (TableID × TableRecord) :=
  match tabs with
  | [] => []
  | (k, v) :: rest => if k = t then (k, r) :: rest else (k, v) :: setTable rest t r

/-- ACL Store read: the privilege set held by `c` on table `t` (empty when no
row is present — a row with an empty privilege set is logically absent). -/
def getPrivileges (acl : List ((TableID × Addr) × Finset Priv)) (t : TableID) (c : Addr) :
    Finset Priv :=
  match acl with
  | [] => ∅
  | (k, s) :: rest => if k = (t, c) then s else getPrivileges rest t c

/-- Modelled from the spec: grant upsert for one grantee — union the granted
privileges into the grantee's row, inserting the row if absent. -/
def aclGrantOne (acl : List ((TableID × Addr) × Finset Priv)) (t : TableID) (c : Addr)
    (ps : Finset Priv) : List ((TableID × Addr) × Finset Priv) :=
  match acl with
  | [] => [((t, c), ps)]
  | (k, s) :: rest =>
    if k = (t, c) then (k, s ∪ ps) :: rest else (k, s) :: aclGrantOne rest t c ps

/-- Modelled from the spec: revoke for one grantee — set difference on the
grantee's row; a row that becomes empty is logically absent. -/
def aclRevokeOne (acl : List ((TableID × Addr) × Finset Priv)) (t : TableID) (c : Addr)
    (ps : Finset Priv) : List ((TableID × Addr) × Finset Priv) :=
  match acl with
  | [] => []
  | (k, s) :: rest =>
    if k = (t, c) then (k, s \ ps) :: rest else (k, s) :: aclRevokeOne rest t c ps

/-- Grant to every listed grantee in order. -/
def aclGrantMany (acl : List ((TableID × Addr) × Finset Priv)) (t : TableID)
    (gs : List Addr) (ps : Finset Priv) : List ((TableID × Addr) × Finset Priv) :=
  match gs with
  | [] => acl
  | c :: rest => aclGrantMany (aclGrantOne acl t c ps) t rest ps

/-- Revoke from every listed grantee in order. -/
def aclRevokeMany (acl : List ((TableID × Addr) × Finset Priv)) (t : TableID)
    (gs : List Addr) (ps : Finset Priv) : List ((TableID × Addr) × Finset Priv) :=
  match gs with
  | [] => acl
  | c :: rest => aclRevokeMany (aclRevokeOne acl t c ps) t rest ps

/-- Modelled from the spec: the policy pre-checks of the Policy Validator —
reject an operation kind the policy disallows, and reject an UPDATE that
targets a column outside `updatableColumns`.  Returns the rejection message,
or `none` when permitted. -/
def policyCheck (pol : Policy) (op : WriteOp) : Option String :=
  match op with
  | .insertRow _ =>
    if pol.allowInsert then none else some "insert is not allowed by policy"
  | .updateRows col _ _ =>
    if pol.allowUpdate then
      match pol.updatableColumns with
      | some cols => if col ∈ cols then none else some s!"column {col} is not allowed"
      | none => none
    else some "update is not allowed by policy"
  | .deleteRows _ =>
    if pol.allowDelete then none else some "delete is not allowed by policy"

/-- Evaluate an optional row predicate (absent means `true`). -/
def predOf : Option (String → Bool) → String → Bool
  | none, _ => true
  | some f, r => f r

/-- Modelled from the spec: conjoin the policy's `whereClause` with the
statement's own predicate for UPDATE/DELETE targeting. -/
def injectWhere (pol : Policy) (op : WriteOp) : WriteOp :=
  match pol.whereClause with
  | none => op
  | some pw =>
    match op with
    | .insertRow v => .insertRow v
    | .updateRows c v wh => .updateRows c v (some (fun r => predOf wh r && pw r))
    | .deleteRows wh => .deleteRows (some (fun r => predOf wh r && pw r))

/-- Execute a write operation on a table's rows.  Returns the new rows, the
number of rows the statement reports as affected, and the post-execution
values of the rows the statement touched (used by the `withCheck` audit). -/
def applyOp (rows : List String) : WriteOp → List String × Nat × List String
  | .insertRow v => (rows ++ [v], 1, [v])
  | .updateRows _ v wh =>
    (rows.map (fun r => if predOf wh r then v else r),
     rows.countP (predOf wh),
     List.replicate (rows.countP (predOf wh)) v)
  | .deleteRows wh =>
    (rows.filter (fun r => !(predOf wh r)), rows.countP (predOf wh), [])

/-- The row-count quota is exceeded when a maximum is configured (non-zero)
and the row count after the statement surpasses it. -/
def rowLimitExceeded (maxR afterCount : Nat) : Bool :=
  decide (0 < maxR ∧ maxR < afterCount)

/-- The row-quota failure message, naming the before and after counts. -/
def rowLimitMsg (beforeCount afterCount : Nat) : String :=
  s!"table maximum row count exceeded (before {beforeCount}, after {afterCount})"

/-- The `withCheck` audit failure message, naming the affected-row count and
the audited count. -/
def auditMsg (affected audited : Nat) : String :=
  s!"number of affected rows {affected} does not match auditing count {audited}"

/-- Modelled from the spec: execute one write operation of a RunSQL statement
inside the Transaction Scope.  The policy-constrained path is selected when
the target table has a controller set (the behaviour the test suite pins
down: policies are enforced after SetController even for owner-flagged
events); otherwise the statement runs unconstrained.  The row-count quota is
enforced on both paths. -/
def execWrite (db : DB) (pol : Policy) (t : TableID) (op : WriteOp) : Except String DB :=
  match lookupTable db t with
  | none => .error s!"table {t} does not exist"
  | some tbl =>
    match tbl.controller with
    | some _ =>
      match policyCheck pol op with
      | some msg => .error msg
      | none =>
        match applyOp tbl.rows (injectWhere pol op) with
        | (newRows, affected, touched) =>
          if rowLimitExceeded tbl.maxRowCount newRows.length then
            .error (rowLimitMsg tbl.rows.length newRows.length)
          else
            match pol.withCheck with
            | some chk =>
              if touched.countP chk = affected then
                .ok { db with tables := setTable db.tables t { tbl with rows := newRows } }
              else .error (auditMsg affected (touched.countP chk))
            | none =>
              .ok { db with tables := setTable db.tables t { tbl with rows := newRows } }
    | none =>
      match applyOp tbl.rows op with
      | (newRows, _, _) =>
        if rowLimitExceeded tbl.maxRowCount newRows.length then
          .error (rowLimitMsg tbl.rows.length newRows.length)
        else .ok { db with tables := setTable db.tables t { tbl with rows := newRows } }

/-- Modelled from the spec: execute one parsed query of a RunSQL statement.
Grant and revoke queries update the ACL Store (union / set difference). -/
def execStmt (db : DB) (pol : Policy) (stmt : Stmt) : Except String DB :=
  match stmt with
  | .write t op => execWrite db pol t op
  | .grantPriv t gs ps => .ok { db with acl := aclGrantMany db.acl t gs ps }
  | .revokePriv t gs ps => .ok { db with acl := aclRevokeMany db.acl t gs ps }

/-- Fold a list of parsed queries, stopping at the first failure. -/
def execStmts (db : DB) (pol : Policy) : List Stmt → Except String DB
  | [] => .ok db
  | s :: rest =>
    match execStmt db pol s with
    | .ok db1 => execStmts db1 pol rest
    | .error e => .error e

/-- The conventional unset (zero) controller address. -/
def zeroAddr : Addr := "0x0"

/-- Modelled from the spec: execute one event inside a Transaction Scope.
CreateTable and SetController apply directly; a RunSQL event executes its
parsed queries in order and fails as a whole if any query fails.  The
`isOwner` flag of a RunSQL event does not influence execution (the policy
gate is the table's controller, as the test suite pins down). -/
def execEvent (db : DB) : Event → Except String DB
  | .runSQL _ _ pol stmts => execStmts db pol stmts
  | .createTable _ t maxRows =>
    .ok { db with tables := db.tables ++ [(t, ⟨[], none, maxRows⟩)] }
  | .setController t ctrl =>
    match lookupTable db t with
    | none => .error s!"table {t} does not exist"
    | some tbl =>
      let newCtrl := if ctrl = zeroAddr then none else some ctrl
      .ok { db with tables := setTable db.tables t { tbl with controller := newCtrl } }
  | .grantEvt t gs ps => .ok { db with acl := aclGrantMany db.acl t gs ps }
  | .revokeEvt t gs ps => .ok { db with acl := aclRevokeMany db.acl t gs ps }

/-- Modelled from the spec: the per-transaction result record. -/
structure TxnExecutionResult where
  tableID : Option TableID
  error : Option String
  errorEventIdx : Option Nat
deriving DecidableEq, Repr

/-- Run the events of one chain transaction in order, reporting the index and
message of the first failure. -/
def runEvents (db : DB) (i : Nat) : List Event → Except (Nat × String) DB
  | [] => .ok db
  | e :: rest =>
    match execEvent db e with
    | .ok db1 => runEvents db1 (i + 1) rest
    | .error m => .error (i, m)

/-- Modelled from the spec: the Transaction Scope.  Applies one chain
transaction's ordered events as a nested unit of atomicity: any failure rolls
back every write of this transaction (the returned state is the input state)
and the result records the 0-based failing event index and a message. -/
def execTxn (db : DB) (events : List Event) : DB × TxnExecutionResult :=
  match runEvents db 0 events with
  | .ok db1 => (db1, ⟨(events.head?).map eventTable, none, none⟩)
  | .error (i, m) => (db, ⟨none, some m, some i⟩)

/-- Modelled from the spec: the Block Scope state machine (`Open → Committed`;
a scope discarded by `Close` disappears from the Executor). -/
inductive ScopeStatus where
  | isOpen
  | isCommitted
deriving DecidableEq, Repr

/-- Modelled from the spec: a Block Scope — the working database state of its
open block-level transaction, the block height it was opened for, and its
state-machine status. -/
structure BlockScope where
  cur : DB
  height : Int
  status : ScopeStatus
deriving DecidableEq

/-- Modelled from the spec: the Executor — owner of the durable database
state, the last explicitly saved processed block height (the replay-guard
reference; the test suite pins down that committing a Block Scope does not by
itself advance it), and the at-most-one open Block Scope. -/
structure Executor where
  db : DB
  lastProcessedHeight : Int
  scope : Option BlockScope
deriving DecidableEq

/-- Modelled from the spec: `NewBlockScope(height)` — fails when a Block
Scope is already open, or when `height` is not strictly greater than the
saved last processed height; otherwise opens a fresh Block Scope whose
working state starts from the durable database state. -/
def newBlockScope (ex : Executor) (h : Int) : Except String Executor :=
  match ex.scope with
  | some _ => .error "a block scope is already open"
  | none =>
    if h ≤ ex.lastProcessedHeight then
      .error s!"block height {h} is not greater than the last processed height"
    else
      .ok { ex with scope := some ⟨ex.db, h, .isOpen⟩ }

/-- Modelled from the spec: `ExecuteTxnEvents` — runs one chain transaction's
events as a Transaction Scope inside the open Block Scope.  Per-transaction
failures are captured in the returned result, never surfaced as errors of
this call; it fails only when no open Block Scope exists. -/
def executeTxnEvents (ex : Executor) (events : List Event) :
    Except String (Executor × TxnExecutionResult) :=
  match ex.scope with
  | none => .error "no open block scope"
  | some s =>
    match s.status with
    | .isCommitted => .error "block scope is not open"
    | .isOpen =>
      match execTxn s.cur events with
      | (db1, res) => .ok ({ ex with scope := some { s with cur := db1 } }, res)

/-- Modelled from the spec: `Commit` — durably persists every transaction
applied so far in the open Block Scope and transitions it to Committed;
fails on a non-open scope. -/
def commitScope (ex : Executor) : Except String Executor :=
  match ex.scope with
  | none => .error "no open block scope"
  | some s =>
    match s.status with
    | .isCommitted => .error "block scope already committed"
    | .isOpen => .ok { ex with db := s.cur, scope := some { s with status := .isCommitted } }

/-- Modelled from the spec: `Close` — discards a still-open Block Scope
(rolling back its uncommitted transaction, leaving the durable state
untouched) and is a no-op after `Commit`; safe to call unconditionally. -/
def closeScope (ex : Executor) : Executor :=
  { ex with scope := none }

/-- Modelled from the spec: explicitly record a processed block height,
advancing the replay-guard reference of `newBlockScope`. -/
def saveLastProcessedHeight (ex : Executor) (h : Int) : Executor :=
  { ex with lastProcessedHeight := h }

/-- A fresh executor over an initial database state; no height has been
processed yet. -/
def initExecutor (db : DB) : Executor :=
  { db := db, lastProcessedHeight := -1, scope := none }

/-- Apply a list of chain transactions (each an event list) to an executor,
ignoring the per-transaction results; a transaction that cannot run (no open
scope) leaves the executor unchanged. -/
def applyTxns (ex : Executor) : List (List Event) → Executor
  | [] => ex
  | evs :: rest =>
    match executeTxnEvents ex evs with
    | .ok (ex1, _) => applyTxns ex1 rest
    | .error _ => applyTxns ex rest

/-- Extract the executor from an executor-valued `Except`, keeping the
previous state on error (scenario plumbing). -/
def orKeep (r : Except String Executor) (ex : Executor) : Executor :=
  match r with
  | .ok ex1 => ex1
  | .error _ => ex

/-- Run one transaction and return the new executor plus its result record,
returning an empty result if no scope was open (scenario plumbing). -/
def stepTxn (ex : Executor) (events : List Event) : Executor × TxnExecutionResult :=
  match executeTxnEvents ex events with
  | .ok p => p
  | .error _ => (ex, ⟨none, none, none⟩)

/-- The rows of table `t` in a database state. -/
def tableRows (db : DB) (t : TableID) : List String :=
  match lookupTable db t with
  | some tbl => tbl.rows
  | none => []

/-- The fully permissive policy the test suite attaches to owner events. -/
def permissivePolicy : Policy :=
  { allowInsert := true, allowUpdate := true, allowDelete := true,
    whereClause := none, updatableColumns := none, withCheck := none }

/-! ### Telemetry collection (from the telemetry package source)

`SetMetricStore` installs a store through a `sync.Once`, so only the first
call runs the assignment; `Collect` with no store installed logs a warning
and returns a nil error. -/

/-- A metric store, abstracted to an identity plus the outcome its
`StoreMetric` method produces (`none` = success, `some e` = error `e`). -/
structure MetricStore where
  ident : Nat
  storeOutcome : Option String
deriving DecidableEq, Repr

/-- The package-level telemetry state: the installed store and whether the
`sync.Once` guarding `SetMetricStore` has fired. -/
structure TelemetryState where
  metricStore : Option MetricStore
  onceDone : Bool
deriving DecidableEq, Repr

/-- The initial telemetry state: no store installed, `once` not yet fired. -/
def initTelemetry : TelemetryState := ⟨none, false⟩

/-- `SetMetricStore`: `once.Do` runs the assignment only on the first call. -/
def setMetricStore (st : TelemetryState) (s : MetricStore) : TelemetryState :=
  if st.onceDone then st else ⟨some s, true⟩

/-- The argument of `Collect`: the supported StateHash variant or a value of
an unknown type (its type name kept for the error message). -/
inductive CollectInput where
  | stateHash (chainID : Int) (blockNumber : Int) (hash : String)
  | unknown (typeName : String)

/-- The StateHash metric payload persisted by `Collect`. -/
structure StateHashMetric where
  version : Nat
  chainID : Int
  blockNumber : Int
  hash : String
deriving DecidableEq, Repr

/-- `Collect`: with no store installed it only logs and returns nil; with a
store, a StateHash metric is persisted to that store (propagating the store's
own failure wrapped as `store metric:`), and any other value yields an
unknown-metric-type error.  Returns the persisted (store, payload) pair, if
any, together with the returned error. -/
def collect (st : TelemetryState) (m : CollectInput) :
    Option (MetricStore × StateHashMetric) × Option String :=
  match st.metricStore with
  | none => (none, none)
  | some s =>
    match m with
    | .stateHash ch bn h =>
      match s.storeOutcome with
      | some e => (none, some ("store metric: " ++ e))
      | none => (some (s, ⟨1, ch, bn, h⟩), none)
    | .unknown n => (none, some ("unknown metric type " ++ n))

/-! ### Ethereum client call retry (from pkg/tables/impl/ethereum/client.go) -/

/-- Whether the character list `p` occurs at the head of `s`. -/
def charsHasPre : List Char → List Char → Bool
  | [], _ => true
  | _ :: _, [] => false
  | p :: ps, c :: cs => p == c && charsHasPre ps cs

/-- Whether the character list `p` occurs anywhere inside `s`
(Go `strings.Contains`). -/
def charsHasSub (p : List Char) : List Char → Bool
  | [] => charsHasPre p []
  | c :: cs => charsHasPre p (c :: cs) || charsHasSub p cs

/-- Whether `pat` is a substring of `s`. -/
def strHasSub (s pat : String) : Bool :=
  charsHasSub pat.toList s.toList

/-- The error messages `callWithRetry` treats as a stale-nonce condition. -/
def possibleErrMgs : List String := ["nonce too low", "invalid transaction nonce"]

/-- Whether a first-attempt error message triggers the nonce-resync retry. -/
def retryableNonceErr (e : String) : Bool :=
  possibleErrMgs.any (fun m => strHasSub e m)

/-- `callWithRetry`, with the wrapped call `f` represented by the outcomes of
its (at most two) invocations and the nonce tracker's `Resync` by its outcome
(`none` = success).  Returns the overall result together with the number of
times `f` was invoked. -/
def callWithRetry {τ : Type} (attempt1 attempt2 : Except String τ)
    (resyncOutcome : Option String) : Except String τ × Nat :=
  match attempt1 with
  | .ok tx => (.ok tx, 1)
  | .error e =>
    if retryableNonceErr e then
      match resyncOutcome with
      | some re => (.error ("resync: " ++ re), 1)
      | none =>
        match attempt2 with
        | .ok tx => (.ok tx, 2)
        | .error e2 => (.error ("retry contract call: " ++ e2), 2)
    else (.error ("contract call: " ++ e), 1)

/-! ### Concrete scenario states (mirroring the test suite's setups) -/

/-- The test database: table `100` (foo_1337_100) exists with no rows, no
controller and no row limit; table `101` does not exist. -/
def baseDB : DB := ⟨[(100, ⟨[], none, 0⟩)], []⟩

/-- The test database after `SetController` to the non-zero address `0x1`. -/
def ctrlDB : DB := ⟨[(100, ⟨[], some "0x1", 0⟩)], []⟩

/-- An owner-flagged single-insert RunSQL event on table 100. -/
def insertEvent (v : String) : Event :=
  .runSQL true 100 permissivePolicy [Stmt.write 100 (WriteOp.insertRow v)]

/-- The failing mixed event of the test: one RunSQL event whose statement has
a valid insert into table 100 followed by an insert into the nonexistent
table 101. -/
def mixedFailEvent : Event :=
  .runSQL true 100 permissivePolicy
    [Stmt.write 100 (WriteOp.insertRow "twoz"), Stmt.write 101 (WriteOp.insertRow "threez")]

/-- Scenario for failure isolation: open a scope at height 0 over `baseDB`. -/
def c1ex1 : Executor := orKeep (newBlockScope (initExecutor baseDB) 0) (initExecutor baseDB)

/-- After the first (successful) single-insert transaction. -/
def c1p1 : Executor × TxnExecutionResult := stepTxn c1ex1 [insertEvent "onez"]

/-- After the second (failing) mixed transaction. -/
def c1p2 : Executor × TxnExecutionResult := stepTxn c1p1.1 [mixedFailEvent]

/-- After the third (successful) single-insert transaction. -/
def c1p3 : Executor × TxnExecutionResult := stepTxn c1p2.1 [insertEvent "fourz"]

/-- The committed and closed final state of the failure-isolation scenario. -/
def c1fin : Executor := closeScope (orKeep (commitScope c1p3.1) c1p3.1)

/-- Replay-guard scenario: a scope opened at height 0 over `baseDB`. -/
def c3ex1 : Executor := orKeep (newBlockScope (initExecutor baseDB) 0) (initExecutor baseDB)

/-- One successful insert executed inside the height-0 scope. -/
def c3ex2 : Executor := (stepTxn c3ex1 [insertEvent "one"]).1

/-- The height-0 scope committed. -/
def c3ex3 : Executor := orKeep (commitScope c3ex2) c3ex2

/-- The executor after committing and closing the height-0 scope. -/
def c3ex4 : Executor := closeScope c3ex3

/-- A blocked-height executor used as witness input (height already saved). -/
def c3exSaved : Executor := saveLastProcessedHeight (initExecutor baseDB) 7

/-- The `withCheck` predicate of the failing-audit test (`zar = 'two'`). -/
def c6chk : String → Bool := fun r => r == "two"

/-- The failing-audit test policy: inserts allowed, `withCheck` set. -/
def c6pol : Policy :=
  { allowInsert := true, allowUpdate := false, allowDelete := false,
    whereClause := none, updatableColumns := none, withCheck := some c6chk }

/-- The all-denying policy of the policy-rejection tests. -/
def denyAllPolicy : Policy :=
  { allowInsert := false, allowUpdate := false, allowDelete := false,
    whereClause := none, updatableColumns := none, withCheck := none }

/-- The grantee address used by the grant/revoke test. -/
def theGrantee : Addr := "0xd43c59d5694ec111eb9e986c233200b14249558d"

/-- The database after one transaction granting {insert, update, delete} to
`theGrantee` on table 100 and then revoking {insert, delete}. -/
def c7res : DB :=
  (execTxn baseDB [Event.runSQL true 100 permissivePolicy
    [Stmt.grantPriv 100 [theGrantee] {Priv.ins, Priv.upd, Priv.del},
     Stmt.revokePriv 100 [theGrantee] {Priv.ins, Priv.del}]]).1

/-- A row-limit table at its configured maximum (two rows, maximum two). -/
def fullTable : TableRecord := ⟨["a", "b"], none, 2⟩

/-- A row-limit database: table 100 holds `fullTable`. -/
def fullDB : DB := ⟨[(100, fullTable)], []⟩

/-- A row-limit table one below its configured maximum. -/
def belowTable : TableRecord := ⟨["a"], none, 2⟩

/-- A row-limit database: table 100 holds `belowTable`. -/
def belowDB : DB := ⟨[(100, belowTable)], []⟩

/-! ### Helper lemmas -/

/-- One-grantee grant characterized through the ACL read. -/
theorem getPriv_grantOne (acl : List ((TableID × Addr) × Finset Priv)) (t : TableID)
    (c : Addr) (ps : Finset Priv) (u : TableID) (d : Addr) :
    getPrivileges (aclGrantOne acl t c ps) u d =
      if (u, d) = (t, c) then getPrivileges acl u d ∪ ps else getPrivileges acl u d := by
  induction acl with
  | nil =>
    by_cases hu : u = t <;> by_cases hd2 : d = c <;>
      simp_all [aclGrantOne, getPrivileges, eq_comm]
  | cons hd tl ih =>
    obtain ⟨k, s⟩ := hd
    by_cases hk : k = (t, c) <;> by_cases hud : k = (u, d) <;>
      by_cases hu : u = t <;> by_cases hd2 : d = c <;>
        simp_all [aclGrantOne, getPrivileges, eq_comm]

/-- One-grantee revoke characterized through the ACL read. -/
theorem getPriv_revokeOne (acl : List ((TableID × Addr) × Finset Priv)) (t : TableID)
    (c : Addr) (ps : Finset Priv) (u : TableID) (d : Addr) :
    getPrivileges (aclRevokeOne acl t c ps) u d =
      if (u, d) = (t, c) then getPrivileges acl u d \ ps else getPrivileges acl u d := by
  induction acl with
  | nil =>
    by_cases hu : u = t <;> by_cases hd2 : d = c <;>
      simp_all [aclRevokeOne, getPrivileges, eq_comm]
  | cons hd tl ih =>
    obtain ⟨k, s⟩ := hd
    by_cases hk : k = (t, c) <;> by_cases hud : k = (u, d) <;>
      by_cases hu : u = t <;> by_cases hd2 : d = c <;>
        simp_all [aclRevokeOne, getPrivileges, eq_comm]

/-- Multi-grantee grant characterized through the ACL read: a listed grantee's
privileges gain `ps` by union, everyone else is untouched. -/
theorem getPriv_grantMany (gs : List Addr) (acl : List ((TableID × Addr) × Finset Priv))
    (t : TableID) (ps : Finset Priv) (u : TableID) (d : Addr) :
    getPrivileges (aclGrantMany acl t gs ps) u d =
      if u = t ∧ d ∈ gs then getPrivileges acl u d ∪ ps else getPrivileges acl u d := by
  induction gs generalizing acl with
  | nil => simp [aclGrantMany]
  | cons c rest ih =>
    simp only [aclGrantMany]
    rw [ih, getPriv_grantOne]
    by_cases h1 : u = t
    · subst h1
      by_cases h2 : d = c
      · subst h2
        by_cases h3 : d ∈ rest <;>
          simp [h3, Finset.union_assoc, Finset.union_self, List.mem_cons]
      · by_cases h3 : d ∈ rest <;>
          simp [h2, h3, List.mem_cons]
    · simp [h1]

/-- Multi-grantee revoke characterized through the ACL read: a listed
grantee's privileges lose `ps` by set difference, everyone else is
untouched. -/
theorem getPriv_revokeMany (gs : List Addr) (acl : List ((TableID × Addr) × Finset Priv))
    (t : TableID) (ps : Finset Priv) (u : TableID) (d : Addr) :
    getPrivileges (aclRevokeMany acl t gs ps) u d =
      if u = t ∧ d ∈ gs then getPrivileges acl u d \ ps else getPrivileges acl u d := by
  induction gs generalizing acl with
  | nil => simp [aclRevokeMany]
  | cons c rest ih =>
    simp only [aclRevokeMany]
    rw [ih, getPriv_revokeOne]
    by_cases h1 : u = t
    · subst h1
      by_cases h2 : d = c
      · subst h2
        by_cases h3 : d ∈ rest <;>
          simp [h3, Finset.sdiff_idem, List.mem_cons]
      · by_cases h3 : d ∈ rest <;>
          simp [h2, h3, List.mem_cons]
    · simp [h1]

/-- A failing Transaction Scope returns the database state it started from. -/
theorem execTxn_error_rollback (db : DB) (evs : List Event)
    (h : ((execTxn db evs).2.error).isSome) : (execTxn db evs).1 = db := by
  unfold execTxn at h ⊢
  cases he : runEvents db 0 evs with
  | ok db1 => rw [he] at h; simp at h
  | error p => obtain ⟨i, m⟩ := p; rfl

/-- `ExecuteTxnEvents` on an open Block Scope fully characterized: it cannot
fail, it records the Transaction Scope's result, it keeps the scope open at
the same height, and it leaves the durable database state untouched. -/
theorem executeTxnEvents_open (ex : Executor) (s : BlockScope) (events : List Event)
    (h1 : ex.scope = some s) (h2 : s.status = .isOpen) :
    executeTxnEvents ex events =
      .ok ({ ex with scope := some ⟨(execTxn s.cur events).1, s.height, .isOpen⟩ },
           (execTxn s.cur events).2) := by
  obtain ⟨cur, ht, st⟩ := s
  simp only at h2
  subst h2
  unfold executeTxnEvents
  rw [h1]

/-- Running transactions inside a Block Scope never touches the Executor's
durable database state nor the saved processed height. -/
theorem applyTxns_frame (txns : List (List Event)) (ex : Executor) :
    (applyTxns ex txns).db = ex.db ∧
      (applyTxns ex txns).lastProcessedHeight = ex.lastProcessedHeight := by
  induction txns generalizing ex with
  | nil => exact ⟨rfl, rfl⟩
  | cons evs rest ih =>
    simp only [applyTxns]
    cases hx : executeTxnEvents ex evs with
    | error e => exact ih ex
    | ok p =>
      obtain ⟨ex1, res⟩ := p
      have hdb : ex1.db = ex.db ∧ ex1.lastProcessedHeight = ex.lastProcessedHeight := by
        unfold executeTxnEvents at hx
        cases hs : ex.scope with
        | none => rw [hs] at hx; simp at hx
        | some s =>
          rw [hs] at hx
          simp only at hx
          cases hst : s.status with
          | isCommitted => rw [hst] at hx; simp at hx
          | isOpen =>
            rw [hst] at hx
            cases he : execTxn s.cur evs with
            | mk db1 r =>
              rw [he] at hx
              simp only [Except.ok.injEq, Prod.mk.injEq] at hx
              obtain ⟨hx1, _⟩ := hx
              rw [← hx1]
              exact ⟨rfl, rfl⟩
      obtain ⟨iha, ihb⟩ := ih ex1
      exact ⟨iha.trans hdb.1, ihb.trans hdb.2⟩

/-- A successfully opened Block Scope: the prior state had no open scope, the
height clears the replay guard, and the new scope starts from the durable
database state. -/
theorem newBlockScope_ok (ex ex1 : Executor) (h : Int)
    (hok : newBlockScope ex h = .ok ex1) :
    ex.scope = none ∧ ex.lastProcessedHeight < h ∧
      ex1 = { ex with scope := some ⟨ex.db, h, .isOpen⟩ } := by
  unfold newBlockScope at hok
  cases hs : ex.scope with
  | some s => rw [hs] at hok; simp at hok
  | none =>
    rw [hs] at hok
    by_cases hh : h ≤ ex.lastProcessedHeight
    · rw [if_pos hh] at hok; simp at hok
    · rw [if_neg hh] at hok
      simp only [Except.ok.injEq] at hok
      exact ⟨rfl, by omega, hok.symm⟩

/-- Folding `setMetricStore` over a state whose `once` already fired is the
identity. -/
theorem foldl_setMetricStore_done (l : List MetricStore) (st : TelemetryState)
    (h : st.onceDone = true) : l.foldl setMetricStore st = st := by
  induction l generalizing st with
  | nil => rfl
  | cons s rest ih =>
    have hs : setMetricStore st s = st := by unfold setMetricStore; rw [if_pos h]
    simp only [List.foldl, hs]
    exact ih st h

/-! ### Claim theorems -/

/-- C7: per (table, controller), a grant unions the granted privileges into
the controller's ACL privilege set and a revoke subtracts them (set
difference), both idempotently; granting {insert, update, delete} and then
revoking {insert, delete} leaves exactly {update}. -/
theorem C7_acl_grant_revoke :
    (∀ acl t gs ps u d, getPrivileges (aclGrantMany acl t gs ps) u d =
        if u = t ∧ d ∈ gs then getPrivileges acl u d ∪ ps else getPrivileges acl u d)
    ∧ (∀ acl t gs ps u d, getPrivileges (aclRevokeMany acl t gs ps) u d =
        if u = t ∧ d ∈ gs then getPrivileges acl u d \ ps else getPrivileges acl u d)
    ∧ (∀ acl t gs ps u d,
        getPrivileges (aclGrantMany (aclGrantMany acl t gs ps) t gs ps) u d =
          getPrivileges (aclGrantMany acl t gs ps) u d)
    ∧ (∀ acl t gs ps u d,
        getPrivileges (aclRevokeMany (aclRevokeMany acl t gs ps) t gs ps) u d =
          getPrivileges (aclRevokeMany acl t gs ps) u d)
    ∧ getPrivileges c7res.acl 100 theGrantee = {Priv.upd} := by
  refine ⟨?_, ?_, ?_, ?_, ?_⟩
  · exact fun acl t gs ps u d => getPriv_grantMany gs acl t ps u d
  · exact fun acl t gs ps u d => getPriv_revokeMany gs acl t ps u d
  · intro acl t gs ps u d
    simp only [getPriv_grantMany]
    by_cases h : u = t ∧ d ∈ gs
    · simp [h, Finset.union_assoc]
    · simp [h]
  · intro acl t gs ps u d
    simp only [getPriv_revokeMany]
    by_cases h : u = t ∧ d ∈ gs
    · simp [h, Finset.sdiff_idem]
    · simp [h]
  · decide

/-- C9: only the first `SetMetricStore` call has any effect — after any call
sequence the installed store is the first argument, later calls leave the
state unchanged, and `Collect` before any `SetMetricStore` persists nothing
and returns no error. -/
theorem C9_set_metric_store_once :
    (∀ st s, st.onceDone = true → setMetricStore st s = st)
    ∧ (∀ s, setMetricStore initTelemetry s = ⟨some s, true⟩)
    ∧ (∀ l : List MetricStore, (l.foldl setMetricStore initTelemetry).metricStore = l.head?)
    ∧ (∀ m, collect initTelemetry m = (none, none)) := by
  refine ⟨?_, ?_, ?_, ?_⟩
  · intro st s h; unfold setMetricStore; rw [if_pos h]
  · intro s; rfl
  · intro l
    cases l with
    | nil => rfl
    | cons s rest =>
      have h1 : setMetricStore initTelemetry s = ⟨some s, true⟩ := rfl
      simp only [List.foldl, h1, foldl_setMetricStore_done rest ⟨some s, true⟩ rfl]
      rfl
  · intro m; rfl

/-- C9 witness: a second `SetMetricStore` call leaves the installed store of
the first call in place. -/
theorem C9_witness :
    setMetricStore ⟨some ⟨1, none⟩, true⟩ ⟨2, none⟩ = ⟨some ⟨1, none⟩, true⟩ :=
  C9_set_metric_store_once.1 ⟨some ⟨1, none⟩, true⟩ ⟨2, none⟩ rfl

/-- C10: `callWithRetry` invokes the wrapped call at most twice; a second
attempt happens only when the first attempt's error message contains a stale
nonce message and the tracker resync succeeds; a non-matching first error is
returned (wrapped) without any retry. -/
theorem C10_call_with_retry :
    (∀ (τ : Type) (a1 a2 : Except String τ) (rs : Option String),
        (callWithRetry a1 a2 rs).2 ≤ 2)
    ∧ (∀ (τ : Type) (a1 a2 : Except String τ) (rs : Option String),
        (callWithRetry a1 a2 rs).2 = 2 →
          ∃ e, a1 = .error e ∧ retryableNonceErr e = true ∧ rs = none)
    ∧ (∀ (τ : Type) (e : String) (a2 : Except String τ) (rs : Option String),
        retryableNonceErr e = false →
          callWithRetry (Except.error e) a2 rs = (.error ("contract call: " ++ e), 1))
    ∧ (∀ (τ : Type) (e : String) (a2 : Except String τ),
        retryableNonceErr e = true →
          (callWithRetry (Except.error e) a2 none).2 = 2) := by
  refine ⟨?_, ?_, ?_, ?_⟩
  · intro τ a1 a2 rs
    cases a1 with
    | ok tx => simp [callWithRetry]
    | error e =>
      by_cases h : retryableNonceErr e
      · cases rs with
        | some re => simp [callWithRetry, h]
        | none => cases a2 <;> simp [callWithRetry, h]
      · simp [callWithRetry, h]
  · intro τ a1 a2 rs hc
    cases a1 with
    | ok tx => simp [callWithRetry] at hc
    | error e =>
      by_cases h : retryableNonceErr e
      · cases rs with
        | some re => simp [callWithRetry, h] at hc
        | none => exact ⟨e, rfl, by simpa using h, rfl⟩
      · simp [callWithRetry, h] at hc
  · intro τ e a2 rs h
    simp [callWithRetry, h]
  · intro τ e a2 h
    cases a2 <;> simp [callWithRetry, h]

/-- C10 witness: a non-nonce error is returned wrapped after one attempt, and
a stale-nonce error with a successful resync leads to exactly two attempts. -/
theorem C10_witness :
    callWithRetry (Except.error "boom" : Except String Nat) (.ok 1) none
      = (.error ("contract call: " ++ "boom"), 1)
    ∧ (callWithRetry (Except.error "nonce too low" : Except String Nat) (.ok 1) none).2 = 2 :=
  ⟨C10_call_with_retry.2.2.1 Nat "boom" (.ok 1) none (by decide),
   C10_call_with_retry.2.2.2 Nat "nonce too low" (.ok 1) (by decide)⟩

/-- C4 counterexample: an owner-flagged (`isOwner = true`) RunSQL insert is
rejected by the attached policy once a controller is set for the table, so
the owner flag does not bypass policy checks. -/
theorem C4_counterexample :
    (execTxn ctrlDB [Event.runSQL true 100 denyAllPolicy
        [Stmt.write 100 (WriteOp.insertRow "one")]]).2.error
      = some "insert is not allowed by policy"
    ∧ (execTxn ctrlDB [Event.runSQL true 100 denyAllPolicy
        [Stmt.write 100 (WriteOp.insertRow "one")]]).2.error ≠ none := by
  constructor
  · decide
  · decide

/-- C4 (amended): policy checks are bypassed exactly when the target table
has no controller set — on that path execution does not depend on the policy
at all — and the RunSQL event's `isOwner` flag has no effect on execution. -/
theorem C4_controller_gate :
    (∀ (db : DB) (t : TableID) (tbl : TableRecord) (op : WriteOp) (pol1 pol2 : Policy),
        lookupTable db t = some tbl → tbl.controller = none →
        execWrite db pol1 t op = execWrite db pol2 t op)
    ∧ (∀ (db : DB) (io1 io2 : Bool) (t : TableID) (pol : Policy) (stmts : List Stmt),
        execEvent db (Event.runSQL io1 t pol stmts)
          = execEvent db (Event.runSQL io2 t pol stmts)) := by
  constructor
  · intro db t tbl op pol1 pol2 hl hc
    simp [execWrite, hl, hc]
  · intro db io1 io2 t pol stmts
    rfl

/-- C4 witness: with no controller set, a deny-all policy and the permissive
policy execute an insert identically. -/
theorem C4_witness :
    execWrite baseDB permissivePolicy 100 (WriteOp.insertRow "x")
      = execWrite baseDB denyAllPolicy 100 (WriteOp.insertRow "x") :=
  C4_controller_gate.1 baseDB 100 ⟨[], none, 0⟩ (WriteOp.insertRow "x")
    permissivePolicy denyAllPolicy rfl rfl

/-- C1: a failing transaction's writes are absent while writes of successful
transactions before and after it in the same block survive the commit; in the
concrete two-inserts-around-a-failing-mixed-statement scenario the committed
table holds exactly the 2 flanking rows and the failing transaction's result
has `errorEventIdx = 0`. -/
theorem C1_failure_isolation :
    (∀ db evs, ((execTxn db evs).2.error).isSome → (execTxn db evs).1 = db)
    ∧ tableRows c1fin.db 100 = ["onez", "fourz"]
    ∧ (tableRows c1fin.db 100).length = 2
    ∧ (c1p2.2.error).isSome = true
    ∧ c1p2.2.errorEventIdx = some 0 := by
  refine ⟨fun db evs h => execTxn_error_rollback db evs h, by decide, by decide, by decide, by decide⟩

/-- C1 witness: the failing mixed transaction leaves the database it ran on
unchanged. -/
theorem C1_witness : (execTxn baseDB [mixedFailEvent]).1 = baseDB :=
  C1_failure_isolation.1 baseDB [mixedFailEvent] (by decide)

/-- C2: closing a Block Scope that was never committed leaves the durable
database state exactly as it was when the scope was opened, no matter which
transactions ran inside it. -/
theorem C2_close_discards (ex ex1 : Executor) (h : Int) (txns : List (List Event))
    (hok : newBlockScope ex h = .ok ex1) :
    (closeScope (applyTxns ex1 txns)).db = ex.db ∧
      (closeScope (applyTxns ex1 txns)).scope = none := by
  obtain ⟨_, _, h3⟩ := newBlockScope_ok ex ex1 h hok
  have hf := applyTxns_frame txns ex1
  constructor
  · show (applyTxns ex1 txns).db = ex.db
    rw [hf.1, h3]
  · rfl

/-- C2 witness: two individually successful insert transactions are discarded
by a close without commit. -/
theorem C2_witness :
    (closeScope (applyTxns c1ex1 [[insertEvent "one"], [insertEvent "two"]])).db
        = (initExecutor baseDB).db
    ∧ (closeScope (applyTxns c1ex1 [[insertEvent "one"], [insertEvent "two"]])).scope = none :=
  C2_close_discards (initExecutor baseDB) c1ex1 0
    [[insertEvent "one"], [insertEvent "two"]] rfl

/-- C3 counterexample: a Block Scope at height 0 is committed (it wrote the
row "one") and closed, yet `newBlockScope` at the same height 0 succeeds
afterwards — committing does not make the height unavailable, contradicting
the claim that any height not strictly greater than the last committed one is
rejected. -/
theorem C3_counterexample :
    (c3ex2.scope.map BlockScope.height) = some 0
    ∧ ((commitScope c3ex2).toOption).isSome = true
    ∧ tableRows c3ex4.db 100 = ["one"]
    ∧ ((newBlockScope c3ex4 0).toOption).isSome = true := by
  refine ⟨by decide, by decide, by decide, by decide⟩

/-- C3 (amended): `newBlockScope` fails whenever a scope is already open and
whenever the height is not strictly greater than the last explicitly saved
processed height, and otherwise succeeds with a fresh scope over the durable
state; committing a Block Scope does not advance that saved height, so the
height of a just-committed block can be reopened unless it was saved. -/
theorem C3_replay_guard :
    (∀ (ex : Executor) (h : Int) (s : BlockScope), ex.scope = some s →
        ∃ e, newBlockScope ex h = Except.error e)
    ∧ (∀ (ex : Executor) (h : Int), ex.scope = none → h ≤ ex.lastProcessedHeight →
        ∃ e, newBlockScope ex h = Except.error e)
    ∧ (∀ (ex : Executor) (h : Int), ex.scope = none → ex.lastProcessedHeight < h →
        newBlockScope ex h = .ok { ex with scope := some ⟨ex.db, h, ScopeStatus.isOpen⟩ })
    ∧ (∀ ex ex1, commitScope ex = .ok ex1 →
        ex1.lastProcessedHeight = ex.lastProcessedHeight) := by
  refine ⟨?_, ?_, ?_, ?_⟩
  · intro ex h s hs
    unfold newBlockScope
    rw [hs]
    exact ⟨_, rfl⟩
  · intro ex h h1 h2
    unfold newBlockScope
    rw [h1, if_pos h2]
    exact ⟨_, rfl⟩
  · intro ex h h1 h2
    unfold newBlockScope
    rw [h1, if_neg (by omega)]
  · intro ex ex1 hc
    unfold commitScope at hc
    cases hs : ex.scope with
    | none => rw [hs] at hc; simp at hc
    | some s =>
      rw [hs] at hc
      simp only at hc
      cases hst : s.status with
      | isCommitted => rw [hst] at hc; simp at hc
      | isOpen =>
        rw [hst] at hc
        simp only [Except.ok.injEq] at hc
        rw [← hc]

/-- C3 witness: the guard rejects an open scope and a stale height, accepts a
fresh height, and commit preserves the saved height. -/
theorem C3_witness :
    (∃ e, newBlockScope c3ex1 1 = Except.error e)
    ∧ (∃ e, newBlockScope c3exSaved 7 = Except.error e)
    ∧ newBlockScope c3exSaved 8
        = .ok { c3exSaved with scope := some ⟨baseDB, 8, ScopeStatus.isOpen⟩ }
    ∧ c3ex3.lastProcessedHeight = c3ex2.lastProcessedHeight := by
  refine ⟨?_, ?_, ?_, ?_⟩
  · exact C3_replay_guard.1 c3ex1 1 ⟨baseDB, 0, ScopeStatus.isOpen⟩ (by decide)
  · exact C3_replay_guard.2.1 c3exSaved 7 rfl (by decide)
  · exact C3_replay_guard.2.2.1 c3exSaved 8 rfl (by decide)
  · exact C3_replay_guard.2.2.2 c3ex2 c3ex3 rfl

/-- C8: on an open Block Scope, `ExecuteTxnEvents` never fails the scope —
any per-transaction failure is captured in the returned result record, and
the executor keeps an open scope at the same height with its durable state
untouched, usable for subsequent transactions. -/
theorem C8_result_captures_failures (ex : Executor) (s : BlockScope)
    (events : List Event) (h1 : ex.scope = some s) (h2 : s.status = .isOpen) :
    executeTxnEvents ex events =
      .ok ({ ex with scope := some ⟨(execTxn s.cur events).1, s.height, .isOpen⟩ },
           (execTxn s.cur events).2)
    ∧ ∃ ex1, executeTxnEvents ex events = .ok (ex1, (execTxn s.cur events).2)
        ∧ ex1.scope = some ⟨(execTxn s.cur events).1, s.height, ScopeStatus.isOpen⟩
        ∧ ex1.db = ex.db := by
  have h := executeTxnEvents_open ex s events h1 h2
  exact ⟨h, ⟨_, h, rfl, rfl⟩⟩

/-- C8 witness: a failing transaction (invalid target table) is reported in
the result while the scope stays open. -/
theorem C8_witness :
    executeTxnEvents c1ex1 [mixedFailEvent] =
      .ok ({ c1ex1 with
              scope := some ⟨(execTxn baseDB [mixedFailEvent]).1, 0, ScopeStatus.isOpen⟩ },
           (execTxn baseDB [mixedFailEvent]).2)
    ∧ ∃ ex1, executeTxnEvents c1ex1 [mixedFailEvent]
          = .ok (ex1, (execTxn baseDB [mixedFailEvent]).2)
        ∧ ex1.scope = some ⟨(execTxn baseDB [mixedFailEvent]).1, 0, ScopeStatus.isOpen⟩
        ∧ ex1.db = c1ex1.db :=
  C8_result_captures_failures c1ex1 ⟨baseDB, 0, ScopeStatus.isOpen⟩ [mixedFailEvent]
    (by decide) rfl

/-- C5: with a configured maximum row count, an insert below the maximum
succeeds and appends the row, while an insert at the maximum fails with the
error naming the before count N and the after count N + 1 and leaves the
transaction's database state unchanged — also when the event is
owner-flagged (`io` arbitrary). -/
theorem C5_row_count_limit (db : DB) (t : TableID) (tbl : TableRecord) (pol : Policy)
    (v : String) (hl : lookupTable db t = some tbl) (hc : tbl.controller = none)
    (hm : 0 < tbl.maxRowCount) :
    (tbl.rows.length + 1 ≤ tbl.maxRowCount →
      execWrite db pol t (WriteOp.insertRow v) =
        .ok { db with tables := setTable db.tables t { tbl with rows := tbl.rows ++ [v] } })
    ∧ (tbl.rows.length = tbl.maxRowCount →
      execWrite db pol t (WriteOp.insertRow v) =
        .error (rowLimitMsg tbl.maxRowCount (tbl.maxRowCount + 1))
      ∧ ∀ io : Bool, execTxn db [Event.runSQL io t pol [Stmt.write t (WriteOp.insertRow v)]] =
          (db, ⟨none, some (rowLimitMsg tbl.maxRowCount (tbl.maxRowCount + 1)), some 0⟩)) := by
  constructor
  · intro hlt
    have hfalse : rowLimitExceeded tbl.maxRowCount (tbl.rows.length + 1) = false := by
      simp only [rowLimitExceeded, decide_eq_false_iff_not]
      omega
    simp [execWrite, hl, hc, applyOp, hfalse]
  · intro heq
    have htrue : rowLimitExceeded tbl.maxRowCount (tbl.maxRowCount + 1) = true := by
      simp only [rowLimitExceeded, decide_eq_true_eq]
      omega
    have h1 : execWrite db pol t (WriteOp.insertRow v) =
        .error (rowLimitMsg tbl.maxRowCount (tbl.maxRowCount + 1)) := by
      simp [execWrite, hl, hc, applyOp, htrue, heq]
    refine ⟨h1, ?_⟩
    intro io
    simp [execTxn, runEvents, execEvent, execStmts, execStmt, h1]

/-- C5 witness: with maximum 2, inserting into a one-row table succeeds and
inserting into a two-row table fails with the before/after counts 2 and 3,
leaving the transaction state unchanged. -/
theorem C5_witness :
    execWrite belowDB permissivePolicy 100 (WriteOp.insertRow "b")
      = .ok { belowDB with
              tables := setTable belowDB.tables 100 { belowTable with rows := ["a", "b"] } }
    ∧ execWrite fullDB permissivePolicy 100 (WriteOp.insertRow "c")
      = .error (rowLimitMsg 2 3)
    ∧ execTxn fullDB [Event.runSQL true 100 permissivePolicy
        [Stmt.write 100 (WriteOp.insertRow "c")]] =
        (fullDB, ⟨none, some (rowLimitMsg 2 3), some 0⟩) := by
  refine ⟨?_, ?_, ?_⟩
  · exact (C5_row_count_limit belowDB 100 belowTable permissivePolicy "b"
      rfl rfl (by decide)).1 (by decide)
  · exact ((C5_row_count_limit fullDB 100 fullTable permissivePolicy "c"
      rfl rfl (by decide)).2 (by decide)).1
  · exact ((C5_row_count_limit fullDB 100 fullTable permissivePolicy "c"
      rfl rfl (by decide)).2 (by decide)).2 true

/-- C6: under a policy whose `withCheck` is set, if the audited count of
touched rows satisfying the predicate differs from the reported
affected-row count, the statement fails with the error naming both counts,
and the transaction's database state is left unchanged (the applied write is
rolled back, so it is absent after the block commits). -/
theorem C6_withcheck_audit (db : DB) (pol : Policy) (t : TableID) (op : WriteOp)
    (tbl : TableRecord) (c : Addr) (chk : String → Bool) (newRows : List String)
    (affected : Nat) (touched : List String)
    (hl : lookupTable db t = some tbl) (hc : tbl.controller = some c)
    (hchk : pol.withCheck = some chk) (hpc : policyCheck pol op = none)
    (happ : applyOp tbl.rows (injectWhere pol op) = (newRows, affected, touched))
    (hlim : rowLimitExceeded tbl.maxRowCount newRows.length = false)
    (hne : touched.countP chk ≠ affected) :
    execWrite db pol t op = .error (auditMsg affected (touched.countP chk))
    ∧ ∀ io : Bool, execTxn db [Event.runSQL io t pol [Stmt.write t op]] =
        (db, ⟨none, some (auditMsg affected (touched.countP chk)), some 0⟩) := by
  have h1 : execWrite db pol t op = .error (auditMsg affected (touched.countP chk)) := by
    simp [execWrite, hl, hc, hchk, hpc, happ, hlim, hne]
  refine ⟨h1, ?_⟩
  intro io
  simp [execTxn, runEvents, execEvent, execStmts, execStmt, h1]

/-- C6 witness: the failing-audit test scenario — an allowed insert of "one"
under `withCheck` "zar = 'two'" reports 1 affected row but audits 0, fails
with exactly that message, and leaves the transaction state unchanged. -/
theorem C6_witness :
    execWrite ctrlDB c6pol 100 (WriteOp.insertRow "one")
      = .error (auditMsg 1 0)
    ∧ ∀ io : Bool, execTxn ctrlDB [Event.runSQL io 100 c6pol
        [Stmt.write 100 (WriteOp.insertRow "one")]] =
        (ctrlDB, ⟨none, some (auditMsg 1 0), some 0⟩) :=
  C6_withcheck_audit ctrlDB c6pol 100 (WriteOp.insertRow "one") ⟨[], some "0x1", 0⟩
    "0x1" c6chk ["one"] 1 ["one"] rfl rfl rfl rfl rfl rfl (by decide)

end Tableland
